import Mathlib

/-!
Verification of the MT5 trade-analysis engine (mt5_trade_analysis.py and
mt5_api_server.py), as a shallow embedding in Lean.

Modelling conventions:
* Python floats are modelled as rationals; epoch-second timestamps as
  naturals; a calendar day is the UTC day index time / 86400.
* A pandas DataFrame of deals is a list of records in feed order.
* Python numeric division is partial: dividing by zero raises
  ZeroDivisionError (with numpy operands it yields an infinity and a
  divide-by-zero warning instead; either way there is no finite result).
  It is modelled by an Option-valued division, and a computation that
  performs such a division is Option-valued.
* The MetaTrader feed returns deals and orders sorted by time, and a
  feed failure is the Python value None, modelled as an Option input.
-/

namespace MT5

/-- MetaTrader5 constant: entry flag of a deal that opens exposure. -/
def DEAL_ENTRY_IN : Nat := 0

/-- MetaTrader5 constant: entry flag of a deal that closes exposure. -/
def DEAL_ENTRY_OUT : Nat := 1

/-- MetaTrader5 constant: deal type buy. -/
def DEAL_TYPE_BUY : Nat := 0

/-- MetaTrader5 constant: deal type sell. -/
def DEAL_TYPE_SELL : Nat := 1

/-- MetaTrader5 constant: deal type balance movement. -/
def DEAL_TYPE_BALANCE : Nat := 2

/-- MetaTrader5 constant: deal type credit movement. -/
def DEAL_TYPE_CREDIT : Nat := 3

/-- A raw deal record from the history feed (the columns of the deals
DataFrame that mt5_trade_analysis.py reads: position_id, time, entry,
type, symbol, volume, price, commission, swap, profit). -/
structure Deal where
  position_id : Nat
  time : Nat
  entry : Nat
  dtype : Nat
  symbol : String
  volume : ℚ
  price : ℚ
  commission : ℚ
  swap : ℚ
  profit : ℚ
deriving DecidableEq

/-- A raw order record from the history feed; only position_id, sl and tp
are read by the source (mt5_trade_analysis.py lines 75-86). The list of
orders is taken in feed order, which is time order. -/
structure Order where
  position_id : Nat
  sl : ℚ
  tp : ℚ
deriving DecidableEq

/-- The stop-loss / take-profit pair stored per position in orders_dict. -/
structure SlTp where
  sl : ℚ
  tp : ℚ
deriving DecidableEq

/-- One iteration of the orders loop (mt5_trade_analysis.py lines 76-86):
the first order of a position is stored whole; a later order overwrites
the sl field only when its sl is non-zero, and the tp field only when its
tp is non-zero. -/
def applyOrder (cur : Option SlTp) (o : Order) : Option SlTp :=
  match cur with
  | none => some ⟨o.sl, o.tp⟩
  | some v => some ⟨if o.sl ≠ 0 then o.sl else v.sl, if o.tp ≠ 0 then o.tp else v.tp⟩

/-- One update of orders_dict by a single order: only the entry keyed by
the position of that order changes. -/
def updateOrdersDict (dict : Nat → Option SlTp) (o : Order) : Nat → Option SlTp :=
  fun pid => if pid = o.position_id then applyOrder (dict o.position_id) o else dict pid

/-- orders_dict built by folding the orders loop over the order history
(mt5_trade_analysis.py lines 74-86), as a lookup from position_id. -/
def ordersDict (orders : List Order) : Nat → Option SlTp :=
  orders.foldl updateOrdersDict (fun _ => none)

/-- A deal row after get_trades_history attaches the resolved sl and tp
columns (mt5_trade_analysis.py lines 94-95): the lookup yields None when
the position has no order in the window. -/
structure DealR extends Deal where
  rsl : Option ℚ
  rtp : Option ℚ
deriving DecidableEq

/-- Column attachment of lines 94-95: df.sl and df.tp are the orders_dict
entries of the position of each deal, or None when absent. -/
def attachOrders (orders : List Order) (d : Deal) : DealR :=
  { toDeal := d
    rsl := (ordersDict orders d.position_id).map (fun v => v.sl)
    rtp := (ordersDict orders d.position_id).map (fun v => v.tp) }

/-- All deals of one position: the rows of df with the given position_id. -/
def positionGroup (df : List DealR) (pid : Nat) : List DealR :=
  df.filter (fun d => d.position_id == pid)

/-- The completed-position filter of get_trades_history lines 101-110: a
groupby counts the deals per position_id, and only rows whose position
has at least 2 deals are kept. -/
def completedFilter (df : List DealR) : List DealR :=
  df.filter (fun d => decide (2 ≤ (positionGroup df d.position_id).length))

/-- The balance DataFrame of get_trades_history lines 61-66: account
history rows with entry DEAL_ENTRY_IN and type balance or credit. -/
def balanceRows (account : List Deal) : List Deal :=
  account.filter (fun d =>
    d.entry == DEAL_ENTRY_IN && (d.dtype == DEAL_TYPE_BALANCE || d.dtype == DEAL_TYPE_CREDIT))

/-- get_trades_history (mt5_trade_analysis.py lines 35-117). The feed
arguments are None on a feed failure. The function returns None when the
deal feed is None, and again when zero completed positions remain (lines
112-115); otherwise it returns the pair of the filtered deal rows and the
balance rows, exactly the tuple the Python function returns. -/
def get_trades_history (deals : Option (List Deal)) (account : Option (List Deal))
    (orders : Option (List Order)) : Option (List DealR × List Deal) :=
  match deals with
  | none => none
  | some ds =>
    let balance_df : List Deal :=
      match account with
      | some ah => balanceRows ah
      | none => []
    let odict : List Order :=
      match orders with
      | some os => os
      | none => []
    let df := completedFilter (ds.map (attachOrders odict))
    if df.length = 0 then none else some (df, balance_df)

/-- The UTC calendar day of an epoch-second timestamp (the dt.date column
of mt5_trade_analysis.py lines 66 and 200), as a day index. -/
def dateOf (t : Nat) : Nat := t / 86400

/-- Close classification of a position (mt5_trade_analysis.py line 26 of
the spec; source lines 137-154): stop loss, take profit or market. -/
inductive CloseType where
  | sl
  | tp
  | market
deriving DecidableEq

/-- The expression float(x) if pd.notna(x) and x != 0 else None used for
the stored sl and tp fields (source lines 179-180) and as the guard of
the classification branches (lines 143 and 147). -/
def nz (x : Option ℚ) : Option ℚ :=
  x.bind (fun v => if v = 0 then none else some v)

/-- Result of the close classification: close_type, slippage and the
reference price sl_tp_price. -/
structure ClassifiedClose where
  close_type : CloseType
  slippage : ℚ
  sl_tp_price : Option ℚ
deriving DecidableEq

/-- The if / elif / else block of calculate_position_times lines 137-154:
a non-zero resolved stop loss wins, else a non-zero resolved take profit,
else a market close with zero slippage; with a reference price the
slippage is the absolute difference to the close price. -/
def classifyClose (price : ℚ) (rsl rtp : Option ℚ) : ClassifiedClose :=
  match nz rsl with
  | some v => ⟨CloseType.sl, |price - v|, some v⟩
  | none =>
    match nz rtp with
    | some w => ⟨CloseType.tp, |price - w|, some w⟩
    | none => ⟨CloseType.market, 0, none⟩

/-- One reconstructed closed position: the record built at
calculate_position_times lines 170-187 together with the derived columns
holding_time, date, total_profit, is_profit and price_change added at
lines 197-209. -/
structure ClosedPosition where
  position_id : Nat
  open_time : Nat
  close_time : Nat
  symbol : String
  volume : ℚ
  ptype : Nat
  open_price : ℚ
  close_price : ℚ
  sl : Option ℚ
  tp : Option ℚ
  sl_tp_price : Option ℚ
  slippage : ℚ
  close_type : CloseType
  profit : ℚ
  commission : ℚ
  swap : ℚ
  holding_time : Int
  date : Nat
  total_profit : ℚ
  is_profit : Bool
  price_change : ℚ
deriving DecidableEq

/-- The sort_values by time of calculate_position_times line 124,
modelled as a stable sort on the time column. -/
def sortByTime (l : List DealR) : List DealR :=
  List.insertionSort (fun a b => a.time ≤ b.time) l

/-- The deals of one position sorted by time (source line 124). -/
def positionTrades (df : List DealR) (pid : Nat) : List DealR :=
  sortByTime (df.filter (fun d => d.position_id == pid))

/-- The open records of a position (source line 127). -/
def openTrades (df : List DealR) (pid : Nat) : List DealR :=
  (positionTrades df pid).filter (fun d => d.entry == DEAL_ENTRY_IN)

/-- The close records of a position (source line 128). -/
def closeTrades (df : List DealR) (pid : Nat) : List DealR :=
  (positionTrades df pid).filter (fun d => d.entry == DEAL_ENTRY_OUT)

/-- The record appended at calculate_position_times lines 170-187 plus
the derived columns of lines 197-209, for the position trades t :: ts
with first open record o and last close record c. The open_time and
close_time are the minimum and maximum of the time column over all deals
of the group (lines 172-173), written as folds over the nonempty list. -/
def mkPosition (pid : Nat) (t : DealR) (ts : List DealR) (o c : DealR) : ClosedPosition :=
  { position_id := pid
    open_time := (ts.map (fun d => d.time)).foldl min t.time
    close_time := (ts.map (fun d => d.time)).foldl max t.time
    symbol := o.symbol
    volume := o.volume
    ptype := o.dtype
    open_price := o.price
    close_price := c.price
    sl := nz c.rsl
    tp := nz c.rtp
    sl_tp_price := (classifyClose c.price c.rsl c.rtp).sl_tp_price
    slippage := (classifyClose c.price c.rsl c.rtp).slippage
    close_type := (classifyClose c.price c.rsl c.rtp).close_type
    profit := ((t :: ts).map (fun d => d.profit)).sum
    commission := ((t :: ts).map (fun d => d.commission)).sum
    swap := ((t :: ts).map (fun d => d.swap)).sum
    holding_time := ((((ts.map (fun d => d.time)).foldl max t.time : Nat) : Int)
      - (((ts.map (fun d => d.time)).foldl min t.time : Nat) : Int))
    date := dateOf ((ts.map (fun d => d.time)).foldl max t.time)
    total_profit := ((t :: ts).map (fun d => d.profit)).sum
      + ((t :: ts).map (fun d => d.commission)).sum
      + ((t :: ts).map (fun d => d.swap)).sum
    is_profit := decide (0 < ((t :: ts).map (fun d => d.profit)).sum)
    price_change := |c.price - o.price| }

/-- The body of the position loop of calculate_position_times lines
123-187: when the position has no open record or no close record the
loop continues without appending (lines 130-131); otherwise the record is
built from the first open record and the last close record. -/
def buildPosition (df : List DealR) (pid : Nat) : Option ClosedPosition :=
  match positionTrades df pid, (openTrades df pid).head?, (closeTrades df pid).getLast? with
  | t :: ts, some o, some c => some (mkPosition pid t ts o c)
  | _, _, _ => none

/-- The distinct position ids of df in the order of the unique() call at
line 123 (only the set and multiplicity-one matter to the claims). -/
def uniqueIds (df : List DealR) : List Nat :=
  (df.map (fun d => d.position_id)).dedup

/-- calculate_position_times (mt5_trade_analysis.py lines 119-211): one
ClosedPosition per completed position id. -/
def calculate_position_times (df : List DealR) : List ClosedPosition :=
  (uniqueIds df).filterMap (buildPosition df)

/-- Mean of the price_change column of a group (pandas mean: sum divided
by length; the source only evaluates it on nonempty groups, see the
guards at lines 733-734). -/
def meanPriceChange (g : List ClosedPosition) : ℚ :=
  ((g.map (fun p => p.price_change)).sum) / (g.length : ℚ)

/-- avg_profit_points of a group (source line 733, and identically line
323): mean price_change of the profitable trades, 0 when there are
none. -/
def avgProfitPoints (g : List ClosedPosition) : ℚ :=
  if 0 < (g.filter (fun p => p.is_profit)).length
  then meanPriceChange (g.filter (fun p => p.is_profit)) else 0

/-- avg_loss_points of a group (source line 734, and identically line
324): mean price_change of the non-profitable trades, 0 when there are
none. -/
def avgLossPoints (g : List ClosedPosition) : ℚ :=
  if 0 < (g.filter (fun p => !p.is_profit)).length
  then meanPriceChange (g.filter (fun p => !p.is_profit)) else 0

/-- profit_loss_ratio of a group (source line 735, and identically line
325): avg_profit_points / avg_loss_points when avg_loss_points is
positive, else 0. -/
def profitOverLoss (g : List ClosedPosition) : ℚ :=
  if 0 < avgLossPoints g then avgProfitPoints g / avgLossPoints g else 0

/-- win_rate of a group (source line 732, and identically line 372):
profitable count over total count times 100, 0 for an empty group. -/
def winRate (g : List ClosedPosition) : ℚ :=
  if 0 < g.length
  then (((g.filter (fun p => p.is_profit)).length : ℚ) / (g.length : ℚ)) * 100
  else 0

/-- One groupby group of the aggregation by date and symbol (source line
705): the closed positions with the given close date and symbol. -/
def dateSymbolGroup (position_times : List ClosedPosition) (date : Nat) (symbol : String) :
    List ClosedPosition :=
  position_times.filter (fun p => p.date == date && p.symbol == symbol)

/-- One groupby group of the date-only aggregation of save_daily_trades
line 313 (whose summary at lines 319-325 and 368-385 uses the same
win-rate and ratio formulas): the closed positions with the given close
date. -/
def dateGroup (position_times : List ClosedPosition) (date : Nat) : List ClosedPosition :=
  position_times.filter (fun p => p.date == date)

/-- Python numeric division as a partial operation: None stands for the
absence of a finite result (ZeroDivisionError for Python scalars, an
infinity plus a divide-by-zero warning for numpy scalars). -/
def pydiv (a b : ℚ) : Option ℚ :=
  if b = 0 then none else some (a / b)

/-- The sum of the profit column of the balance rows dated today (source
lines 668-671 and identically 289-292). -/
def balanceDelta (balance_df : List Deal) (date : Nat) : ℚ :=
  ((balance_df.filter (fun d => dateOf d.time == date)).map (fun d => d.profit)).sum

/-- The sum of total_profit of the positions closing today (source lines
665 and 674, identically 286 and 295). -/
def tradingPnl (position_times : List ClosedPosition) (date : Nat) : ℚ :=
  ((position_times.filter (fun p => p.date == date)).map (fun p => p.total_profit)).sum

/-- The baseline update of analyze_trades_by_day lines 680-683: on a
deposit day the deposit is excluded from the baseline; on a withdrawal
day the baseline is rescaled by current / (current - delta), a division
the source performs with no guard, so it is None when the denominator is
zero. -/
def baselineUpdate (max_equity current_equity delta : ℚ) : Option ℚ :=
  if 0 ≤ delta then some (max max_equity (current_equity - delta))
  else (pydiv current_equity (current_equity - delta)).map
    (fun r => max (max_equity * r) current_equity)

/-- The drawdown computation of analyze_trades_by_day line 686:
(max_equity - current_equity) / max_equity * 100, a division the source
performs with no guard on max_equity. -/
def drawdownOf (max_equity current_equity : ℚ) : Option ℚ :=
  (pydiv (max_equity - current_equity) max_equity).map (fun r => r * 100)

/-- The loop state of the recurrence of analyze_trades_by_day lines
650-653. -/
structure EqState where
  current_equity : ℚ
  max_equity : ℚ
  max_drawdown : ℚ
deriving DecidableEq

/-- The per-day locals of one iteration of the loop at lines 663-687,
recorded as a trace row: date, daily trading profit, daily balance
change, the updated equity, the updated baseline and the day drawdown. -/
structure DayRow where
  date : Nat
  trading_pnl : ℚ
  balance_delta : ℚ
  equity : ℚ
  max_equity : ℚ
  drawdown : ℚ
deriving DecidableEq

/-- One iteration of the loop at analyze_trades_by_day lines 663-687:
equity update, baseline update, drawdown, running maximum drawdown. The
result is None when one of the two unguarded divisions has a zero
denominator. -/
def dayStep (position_times : List ClosedPosition) (balance_df : List Deal)
    (s : EqState) (date : Nat) : Option (EqState × DayRow) :=
  let delta := balanceDelta balance_df date
  let pnl := tradingPnl position_times date
  let current := s.current_equity + delta + pnl
  match baselineUpdate s.max_equity current delta with
  | none => none
  | some mx =>
    match drawdownOf mx current with
    | none => none
    | some dd => some (⟨current, mx, max s.max_drawdown dd⟩, ⟨date, pnl, delta, current, mx, dd⟩)

/-- The loop of analyze_trades_by_day lines 663-687 over a date list,
threading the state and collecting the per-day trace. -/
def analyzeGo (position_times : List ClosedPosition) (balance_df : List Deal) :
    EqState → List Nat → Option (EqState × List DayRow)
  | s, [] => some (s, [])
  | s, d :: ds =>
    match dayStep position_times balance_df s d with
    | none => none
    | some (s2, row) =>
      match analyzeGo position_times balance_df s2 ds with
      | none => none
      | some (s3, rows) => some (s3, row :: rows)

/-- The sorted distinct union of position close dates and balance dates
(source lines 656-660, textually identical at lines 277-281). -/
def allDates (position_times : List ClosedPosition) (balance_df : List Deal) : List Nat :=
  List.insertionSort (fun a b => a ≤ b)
    (((position_times.map (fun p => p.date)).dedup
      ++ (balance_df.map (fun d => dateOf d.time)).dedup).dedup)

/-- The initial equity of 10000 hard-coded at lines 650 and 272. -/
def initial_equity : ℚ := 10000

/-- The full equity and drawdown recurrence of analyze_trades_by_day
lines 649-688, from the initial state. -/
def analyze_equity (position_times : List ClosedPosition) (balance_df : List Deal) :
    Option (EqState × List DayRow) :=
  analyzeGo position_times balance_df ⟨initial_equity, initial_equity, 0⟩
    (allDates position_times balance_df)

/-- One row of the equity table of save_daily_trades lines 301-307. -/
structure EquityRow where
  date : Nat
  trading_pnl : ℚ
  balance_delta : ℚ
  equity : ℚ
  return_pct : ℚ
deriving DecidableEq

/-- The loop of save_daily_trades lines 284-307: the same equity fold,
emitting one row per day and no drawdown state. -/
def saveGo (position_times : List ClosedPosition) (balance_df : List Deal) :
    ℚ → List Nat → List EquityRow
  | _, [] => []
  | cur, d :: ds =>
    let delta := balanceDelta balance_df d
    let pnl := tradingPnl position_times d
    let cur2 := cur + delta + pnl
    ⟨d, pnl, delta, cur2, (cur2 / initial_equity - 1) * 100⟩
      :: saveGo position_times balance_df cur2 ds

/-- The equity rows of save_daily_trades lines 270-310. -/
def save_equity_rows (position_times : List ClosedPosition) (balance_df : List Deal) :
    List EquityRow :=
  saveGo position_times balance_df initial_equity (allDates position_times balance_df)

/-- Outcome of main (mt5_trade_analysis.py lines 800-823) on one run.
uncaughtTypeError is the TypeError raised by the tuple unpacking at line
808 when get_trades_history returns None; noDataHandled would be the
fall-through of the check at line 810 had a None value reached it. -/
inductive MainOutcome where
  | finished
  | noDataHandled
  | uncaughtTypeError
deriving DecidableEq

/-- main (lines 800-823), after a successful terminal connection: the
tuple unpacking at line 808 raises TypeError on a None return, before
the None check at line 810 can run; on a tuple return the analysis
proceeds. -/
def runMain (deals account : Option (List Deal)) (orders : Option (List Order)) : MainOutcome :=
  match get_trades_history deals account orders with
  | none => MainOutcome.uncaughtTypeError
  | some _ => MainOutcome.finished

/-- Task status written by run_analysis (mt5_api_server.py lines 26-63):
failedNoData is the explicit no-trade-data failure of lines 49-54;
failedException is the except branch of lines 55-60 recording str(e). -/
inductive TaskStatus where
  | completed
  | failedNoData
  | failedException
deriving DecidableEq

/-- run_analysis (mt5_api_server.py lines 26-63), after a successful
terminal connection: the tuple unpacking at line 38 raises TypeError on a
None return, which the except branch catches, so the explicit no-data
branch of lines 49-54 is never reached. -/
def run_analysis (deals account : Option (List Deal)) (orders : Option (List Order)) :
    TaskStatus :=
  match get_trades_history deals account orders with
  | none => TaskStatus.failedException
  | some _ => TaskStatus.completed

/-- Example feed: one position (id 1) opened by a buy deal and closed by
a single out deal. -/
def exDeals : List Deal :=
  [{ position_id := 1, time := 1000, entry := DEAL_ENTRY_IN, dtype := DEAL_TYPE_BUY,
     symbol := "EURUSD", volume := 1, price := 6/5, commission := -1, swap := 0, profit := 0 },
   { position_id := 1, time := 5000, entry := DEAL_ENTRY_OUT, dtype := DEAL_TYPE_SELL,
     symbol := "EURUSD", volume := 1, price := 5/4, commission := -1, swap := -1/2, profit := 50 }]

/-- Example order history: one order on position 1 carrying a stop
loss. -/
def exOrders : List Order := [{ position_id := 1, sl := 9/8, tp := 0 }]

/-- The deal rows of the example feed after sl and tp attachment and the
completed-position filter, as built by get_trades_history. -/
def exDf : List DealR := completedFilter (exDeals.map (attachOrders exOrders))

/-- The closed position the matcher reconstructs from the example
feed. -/
def exPos : ClosedPosition :=
  { position_id := 1, open_time := 1000, close_time := 5000, symbol := "EURUSD",
    volume := 1, ptype := DEAL_TYPE_BUY, open_price := 6/5, close_price := 5/4,
    sl := some (9/8), tp := none, sl_tp_price := some (9/8), slippage := 1/8,
    close_type := CloseType.sl, profit := 50, commission := -2, swap := -1/2,
    holding_time := 4000, date := 0, total_profit := 95/2, is_profit := true,
    price_change := 1/20 }

/-- The closed positions a raw feed produces, as wired in main: the
attachment and completed filter of get_trades_history followed by
calculate_position_times. -/
def feedPositions (deals : List Deal) (orders : List Order) : List ClosedPosition :=
  calculate_position_times (completedFilter (deals.map (attachOrders orders)))

/-- Feed for the zero-denominator withdrawal day: position 1 loses 10000
on day 0 and a withdrawal of 500 is booked the same day, so the equity
after the day is -500 and the rescaling denominator is exactly 0. -/
def wdDeals : List Deal :=
  [{ position_id := 1, time := 1000, entry := DEAL_ENTRY_IN, dtype := DEAL_TYPE_BUY,
     symbol := "XAUUSD", volume := 1, price := 2000, commission := 0, swap := 0, profit := 0 },
   { position_id := 1, time := 2000, entry := DEAL_ENTRY_OUT, dtype := DEAL_TYPE_SELL,
     symbol := "XAUUSD", volume := 1, price := 1900, commission := 0, swap := 0,
     profit := -10000 }]

/-- The balance feed booking the withdrawal of 500 on day 0. -/
def wdBalanceFeed : List Deal :=
  [{ position_id := 0, time := 3000, entry := DEAL_ENTRY_IN, dtype := DEAL_TYPE_BALANCE,
     symbol := "", volume := 0, price := 0, commission := 0, swap := 0, profit := -500 }]

/-- Feed for the deposit day: position 2 gains 100 on day 0 and a deposit
of 500 arrives on day 1 with no trade, so on day 1 the equity of 10600
exceeds the baseline of 10100. -/
def depDeals : List Deal :=
  [{ position_id := 2, time := 1000, entry := DEAL_ENTRY_IN, dtype := DEAL_TYPE_BUY,
     symbol := "EURUSD", volume := 1, price := 1, commission := 0, swap := 0, profit := 0 },
   { position_id := 2, time := 2000, entry := DEAL_ENTRY_OUT, dtype := DEAL_TYPE_SELL,
     symbol := "EURUSD", volume := 1, price := 1, commission := 0, swap := 0, profit := 100 }]

/-- The balance feed booking the deposit of 500 on day 1. -/
def depBalanceFeed : List Deal :=
  [{ position_id := 0, time := 90000, entry := DEAL_ENTRY_IN, dtype := DEAL_TYPE_BALANCE,
     symbol := "", volume := 0, price := 0, commission := 0, swap := 0, profit := 500 }]

/-- Feed for the zero-baseline day: position 3 loses 9000 on day 0 and a
withdrawal of 1000 is booked the same day, so the equity after the day is
0, the rescaled baseline is 0, and the drawdown division has a zero
denominator. -/
def zbDeals : List Deal :=
  [{ position_id := 3, time := 1000, entry := DEAL_ENTRY_IN, dtype := DEAL_TYPE_BUY,
     symbol := "XAUUSD", volume := 1, price := 2000, commission := 0, swap := 0, profit := 0 },
   { position_id := 3, time := 2000, entry := DEAL_ENTRY_OUT, dtype := DEAL_TYPE_SELL,
     symbol := "XAUUSD", volume := 1, price := 1910, commission := 0, swap := 0,
     profit := -9000 }]

/-- The balance feed booking the withdrawal of 1000 on day 0. -/
def zbBalanceFeed : List Deal :=
  [{ position_id := 0, time := 3000, entry := DEAL_ENTRY_IN, dtype := DEAL_TYPE_BALANCE,
     symbol := "", volume := 0, price := 0, commission := 0, swap := 0, profit := -1000 }]

/-!
Helper lemmas about list folds, sorting and the matcher, shared by the
claim theorems.
-/

theorem foldl_min_le (l : List Nat) (a : Nat) : ∀ x ∈ a :: l, l.foldl min a ≤ x := by
  induction l generalizing a with
  | nil =>
    intro x hx
    simp only [List.mem_singleton] at hx
    simp [hx]
  | cons b l ih =>
    intro x hx
    simp only [List.foldl_cons]
    rcases List.mem_cons.mp hx with h | h
    · exact le_trans (le_trans (ih (min a b) _ (List.mem_cons_self _ _)) (min_le_left a b)) h.ge
    · rcases List.mem_cons.mp h with h2 | h2
      · exact le_trans (le_trans (ih (min a b) _ (List.mem_cons_self _ _)) (min_le_right a b)) h2.ge
      · exact ih (min a b) x (List.mem_cons_of_mem _ h2)

theorem le_foldl_max (l : List Nat) (a : Nat) : ∀ x ∈ a :: l, x ≤ l.foldl max a := by
  induction l generalizing a with
  | nil =>
    intro x hx
    simp only [List.mem_singleton] at hx
    simp [hx]
  | cons b l ih =>
    intro x hx
    simp only [List.foldl_cons]
    rcases List.mem_cons.mp hx with h | h
    · exact le_trans (h.le.trans (le_max_left a b)) (ih (max a b) _ (List.mem_cons_self _ _))
    · rcases List.mem_cons.mp h with h2 | h2
      · exact le_trans (h2.le.trans (le_max_right a b)) (ih (max a b) _ (List.mem_cons_self _ _))
      · exact ih (max a b) x (List.mem_cons_of_mem _ h2)

theorem foldl_min_mem (l : List Nat) (a : Nat) : l.foldl min a ∈ a :: l := by
  induction l generalizing a with
  | nil => simp
  | cons b l ih =>
    simp only [List.foldl_cons]
    rcases List.mem_cons.mp (ih (min a b)) with h | h
    · rcases min_choice a b with hm | hm
      · exact List.mem_cons.mpr (Or.inl (h.trans hm))
      · exact List.mem_cons_of_mem _ (List.mem_cons.mpr (Or.inl (h.trans hm)))
    · exact List.mem_cons_of_mem _ (List.mem_cons_of_mem _ h)

theorem foldl_max_mem (l : List Nat) (a : Nat) : l.foldl max a ∈ a :: l := by
  induction l generalizing a with
  | nil => simp
  | cons b l ih =>
    simp only [List.foldl_cons]
    rcases List.mem_cons.mp (ih (max a b)) with h | h
    · rcases max_choice a b with hm | hm
      · exact List.mem_cons.mpr (Or.inl (h.trans hm))
      · exact List.mem_cons_of_mem _ (List.mem_cons.mpr (Or.inl (h.trans hm)))
    · exact List.mem_cons_of_mem _ (List.mem_cons_of_mem _ h)

theorem positionTrades_perm (df : List DealR) (pid : Nat) :
    (positionTrades df pid).Perm (df.filter (fun d => d.position_id == pid)) :=
  List.perm_insertionSort _ _

theorem mem_positionTrades (df : List DealR) (pid : Nat) (d : DealR) :
    d ∈ positionTrades df pid ↔ d ∈ df ∧ d.position_id = pid := by
  rw [(positionTrades_perm df pid).mem_iff, List.mem_filter]
  simp

theorem buildPosition_position_id (df : List DealR) (pid : Nat) (p : ClosedPosition)
    (h : buildPosition df pid = some p) : p.position_id = pid := by
  rcases h1 : positionTrades df pid with _ | ⟨t, ts⟩
  · simp [buildPosition, h1] at h
  rcases h2 : (openTrades df pid).head? with _ | o
  · simp [buildPosition, h1, h2] at h
  rcases h3 : (closeTrades df pid).getLast? with _ | c
  · simp [buildPosition, h1, h2, h3] at h
  · simp only [buildPosition, h1, h2, h3, Option.some.injEq] at h
    rw [← h]
    rfl

theorem mem_calculate_position_times (df : List DealR) (p : ClosedPosition)
    (hp : p ∈ calculate_position_times df) :
    ∃ (t : DealR) (ts : List DealR) (o c : DealR),
      positionTrades df p.position_id = t :: ts ∧
      (openTrades df p.position_id).head? = some o ∧
      (closeTrades df p.position_id).getLast? = some c ∧
      p = mkPosition p.position_id t ts o c := by
  rcases List.mem_filterMap.mp hp with ⟨pid, _, hb⟩
  have hpid : p.position_id = pid := buildPosition_position_id df pid p hb
  subst hpid
  rcases h1 : positionTrades df p.position_id with _ | ⟨t, ts⟩
  · simp [buildPosition, h1] at hb
  rcases h2 : (openTrades df p.position_id).head? with _ | o
  · simp [buildPosition, h1, h2] at hb
  rcases h3 : (closeTrades df p.position_id).getLast? with _ | c
  · simp [buildPosition, h1, h2, h3] at hb
  · simp only [buildPosition, h1, h2, h3, Option.some.injEq] at hb
    exact ⟨t, ts, o, c, rfl, rfl, rfl, hb.symm⟩

theorem buildPosition_eq_none_iff (df : List DealR) (pid : Nat) :
    buildPosition df pid = none ↔ openTrades df pid = [] ∨ closeTrades df pid = [] := by
  rcases h1 : positionTrades df pid with _ | ⟨t, ts⟩
  · have ho : openTrades df pid = [] := by simp [openTrades, h1]
    simp [buildPosition, h1, ho]
  rcases h2 : (openTrades df pid).head? with _ | o
  · have ho : openTrades df pid = [] := List.head?_eq_none_iff.mp h2
    simp [buildPosition, h1, h2, ho]
  rcases h3 : (closeTrades df pid).getLast? with _ | c
  · have hc : closeTrades df pid = [] := by
      cases hcl : closeTrades df pid with
      | nil => rfl
      | cons x xs =>
        rw [hcl] at h3
        simp [List.getLast?_eq_getLast] at h3
    simp [buildPosition, h1, h2, h3, hc]
  · have ho : openTrades df pid ≠ [] := by
      intro he
      rw [he] at h2
      simp at h2
    have hc : closeTrades df pid ≠ [] := by
      intro he
      rw [he] at h3
      simp at h3
    simp [buildPosition, h1, h2, h3, ho, hc]

theorem openTrades_eq_nil_iff (df : List DealR) (pid : Nat) :
    openTrades df pid = [] ↔ ¬ ∃ d ∈ df, d.position_id = pid ∧ d.entry = DEAL_ENTRY_IN := by
  rw [openTrades, List.filter_eq_nil_iff]
  constructor
  · rintro h ⟨d, hd, hpid, hin⟩
    exact h d ((mem_positionTrades df pid d).mpr ⟨hd, hpid⟩) (by simp [hin])
  · intro h d hd hin
    have hm := (mem_positionTrades df pid d).mp hd
    exact h ⟨d, hm.1, hm.2, by simpa using hin⟩

theorem closeTrades_eq_nil_iff (df : List DealR) (pid : Nat) :
    closeTrades df pid = [] ↔ ¬ ∃ d ∈ df, d.position_id = pid ∧ d.entry = DEAL_ENTRY_OUT := by
  rw [closeTrades, List.filter_eq_nil_iff]
  constructor
  · rintro h ⟨d, hd, hpid, hout⟩
    exact h d ((mem_positionTrades df pid d).mpr ⟨hd, hpid⟩) (by simp [hout])
  · intro h d hd hout
    have hm := (mem_positionTrades df pid d).mp hd
    exact h ⟨d, hm.1, hm.2, by simpa using hout⟩

theorem buildPosition_isSome_iff (df : List DealR) (pid : Nat) :
    (buildPosition df pid).isSome = true ↔
      (∃ d ∈ df, d.position_id = pid ∧ d.entry = DEAL_ENTRY_IN) ∧
      (∃ d ∈ df, d.position_id = pid ∧ d.entry = DEAL_ENTRY_OUT) := by
  rw [Option.isSome_iff_ne_none, ne_eq, buildPosition_eq_none_iff,
    openTrades_eq_nil_iff, closeTrades_eq_nil_iff, not_or, not_not, not_not]

theorem mem_uniqueIds (df : List DealR) (pid : Nat) :
    pid ∈ uniqueIds df ↔ ∃ d ∈ df, d.position_id = pid := by
  simp [uniqueIds, List.mem_dedup, List.mem_map]

theorem uniqueIds_nodup (df : List DealR) : (uniqueIds df).Nodup :=
  List.nodup_dedup _

theorem positionGroup_map_attach (deals : List Deal) (orders : List Order) (pid : Nat) :
    positionGroup (deals.map (attachOrders orders)) pid =
      (deals.filter (fun d => d.position_id == pid)).map (attachOrders orders) := by
  rw [positionGroup, List.filter_map]
  rfl

theorem positionGroup_completedFilter (df : List DealR) (pid : Nat) :
    positionGroup (completedFilter df) pid =
      if 2 ≤ (positionGroup df pid).length then positionGroup df pid else [] := by
  rw [completedFilter, positionGroup, List.filter_filter]
  by_cases h : 2 ≤ (positionGroup df pid).length
  · rw [if_pos h]
    rw [positionGroup]
    apply List.filter_congr
    intro d _
    by_cases hd : d.position_id = pid
    · simp [hd, h]
    · simp [hd]
  · rw [if_neg h]
    apply List.filter_eq_nil_iff.mpr
    intro d _
    by_cases hd : d.position_id = pid
    · simp [hd, h]
    · simp [hd]

theorem length_filter_filterMap_build (df : List DealR) (pid : Nat) :
    ∀ ids : List Nat, ids.Nodup →
      ((ids.filterMap (buildPosition df)).filter (fun p => p.position_id == pid)).length =
        if pid ∈ ids ∧ (buildPosition df pid).isSome = true then 1 else 0 := by
  intro ids
  induction ids with
  | nil => simp
  | cons i t ih =>
    intro hnd
    have hit : i ∉ t := (List.nodup_cons.mp hnd).1
    have hnt : t.Nodup := (List.nodup_cons.mp hnd).2
    rw [List.filterMap_cons]
    cases hb : buildPosition df i with
    | none =>
      rw [ih hnt]
      by_cases hpi : pid = i
      · subst hpi
        have : (buildPosition df pid).isSome = false := by rw [hb]; rfl
        simp [this, hit]
      · simp [List.mem_cons, hpi]
    | some p =>
      have hpp : p.position_id = i := buildPosition_position_id df i p hb
      rw [List.filter_cons]
      by_cases hpi : pid = i
      · subst hpi
        have hbeq : (p.position_id == pid) = true := by simp [hpp]
        rw [if_pos hbeq]
        have hs : (buildPosition df pid).isSome = true := by rw [hb]; rfl
        simp only [List.length_cons, ih hnt]
        simp [hit, hs]
      · have hbeq : (p.position_id == pid) = false := by
          simp [hpp]
          exact fun h => hpi h.symm
        rw [if_neg (by simp [hbeq])]
        rw [ih hnt]
        simp [List.mem_cons, hpi]

/-- C4: a position whose deal group has exactly 1 deal never produces a
ClosedPosition; a group of at least 2 deals with at least one IN and at
least one OUT deal produces exactly one; a group of at least 2 deals
lacking an IN deal or lacking an OUT deal is silently discarded (count
0, no error), matching get_trades_history lines 101-110 and
calculate_position_times lines 127-131. -/
theorem C4_matching_policy (deals : List Deal) (orders : List Order) (pid : Nat) :
    ((feedPositions deals orders).filter (fun p => p.position_id == pid)).length =
      if 2 ≤ (deals.filter (fun d => d.position_id == pid)).length ∧
         (∃ d ∈ deals, d.position_id = pid ∧ d.entry = DEAL_ENTRY_IN) ∧
         (∃ d ∈ deals, d.position_id = pid ∧ d.entry = DEAL_ENTRY_OUT)
      then 1 else 0 := by
  have hcnt := length_filter_filterMap_build
    (completedFilter (deals.map (attachOrders orders))) pid
    (uniqueIds (completedFilter (deals.map (attachOrders orders))))
    (uniqueIds_nodup _)
  rw [feedPositions, calculate_position_times, hcnt]
  have hgrp : positionGroup (completedFilter (deals.map (attachOrders orders))) pid =
      if 2 ≤ (deals.filter (fun d => d.position_id == pid)).length
      then (deals.filter (fun d => d.position_id == pid)).map (attachOrders orders)
      else [] := by
    rw [positionGroup_completedFilter, positionGroup_map_attach, List.length_map]
  by_cases h2 : 2 ≤ (deals.filter (fun d => d.position_id == pid)).length
  · rw [if_pos h2] at hgrp
    have hmem : pid ∈ uniqueIds (completedFilter (deals.map (attachOrders orders))) := by
      rw [mem_uniqueIds]
      have hne : (deals.filter (fun d => d.position_id == pid)) ≠ [] := by
        intro he
        rw [he] at h2
        simp at h2
      rcases List.exists_mem_of_ne_nil _ hne with ⟨d, hd⟩
      refine ⟨attachOrders orders d, ?_, ?_⟩
      · have : attachOrders orders d ∈
            positionGroup (completedFilter (deals.map (attachOrders orders))) pid := by
          rw [hgrp]
          exact List.mem_map_of_mem _ hd
        exact (List.mem_filter.mp this).1
      · exact (by simpa using (List.mem_filter.mp hd).2 : d.position_id = pid)
    have hsome : (buildPosition (completedFilter (deals.map (attachOrders orders))) pid).isSome
        = true ↔
        (∃ d ∈ deals, d.position_id = pid ∧ d.entry = DEAL_ENTRY_IN) ∧
        (∃ d ∈ deals, d.position_id = pid ∧ d.entry = DEAL_ENTRY_OUT) := by
      rw [buildPosition_isSome_iff]
      constructor
      · rintro ⟨⟨a, ha, hap, hae⟩, ⟨b, hb, hbp, hbe⟩⟩
        have hag : a ∈ positionGroup (completedFilter (deals.map (attachOrders orders))) pid :=
          List.mem_filter.mpr ⟨ha, by simp [hap]⟩
        rw [hgrp] at hag
        rcases List.mem_map.mp hag with ⟨da, hda, hdaa⟩
        have hbg : b ∈ positionGroup (completedFilter (deals.map (attachOrders orders))) pid :=
          List.mem_filter.mpr ⟨hb, by simp [hbp]⟩
        rw [hgrp] at hbg
        rcases List.mem_map.mp hbg with ⟨db, hdb, hdbb⟩
        refine ⟨⟨da, (List.mem_filter.mp hda).1, ?_, ?_⟩, ⟨db, (List.mem_filter.mp hdb).1, ?_, ?_⟩⟩
        · rw [← hap, ← hdaa]; rfl
        · rw [← hae, ← hdaa]; rfl
        · rw [← hbp, ← hdbb]; rfl
        · rw [← hbe, ← hdbb]; rfl
      · rintro ⟨⟨a, ha, hap, hae⟩, ⟨b, hb, hbp, hbe⟩⟩
        have haf : a ∈ deals.filter (fun d => d.position_id == pid) :=
          List.mem_filter.mpr ⟨ha, by simp [hap]⟩
        have hbf : b ∈ deals.filter (fun d => d.position_id == pid) :=
          List.mem_filter.mpr ⟨hb, by simp [hbp]⟩
        refine ⟨⟨attachOrders orders a, ?_, hap, hae⟩, ⟨attachOrders orders b, ?_, hbp, hbe⟩⟩
        · have : attachOrders orders a ∈
              positionGroup (completedFilter (deals.map (attachOrders orders))) pid := by
            rw [hgrp]; exact List.mem_map_of_mem _ haf
          exact (List.mem_filter.mp this).1
        · have : attachOrders orders b ∈
              positionGroup (completedFilter (deals.map (attachOrders orders))) pid := by
            rw [hgrp]; exact List.mem_map_of_mem _ hbf
          exact (List.mem_filter.mp this).1
    by_cases hio : (∃ d ∈ deals, d.position_id = pid ∧ d.entry = DEAL_ENTRY_IN) ∧
        (∃ d ∈ deals, d.position_id = pid ∧ d.entry = DEAL_ENTRY_OUT)
    · rw [if_pos ⟨hmem, hsome.mpr hio⟩, if_pos ⟨h2, hio.1, hio.2⟩]
    · rw [if_neg ?_, if_neg ?_]
      · intro hc
        exact hio ⟨hc.2.1, hc.2.2⟩
      · intro hc
        exact hio (hsome.mp hc.2)
  · rw [if_neg h2] at hgrp
    have hnmem : pid ∉ uniqueIds (completedFilter (deals.map (attachOrders orders))) := by
      rw [mem_uniqueIds]
      rintro ⟨d, hd, hdp⟩
      have : d ∈ positionGroup (completedFilter (deals.map (attachOrders orders))) pid :=
        List.mem_filter.mpr ⟨hd, by simp [hdp]⟩
      rw [hgrp] at this
      simp at this
    rw [if_neg (fun hc => hnmem hc.1), if_neg (fun hc => h2 hc.1)]

/-- C5: close reason and slippage of every reconstructed position follow
the stop-loss-first rule of calculate_position_times lines 137-154, read
off the stored resolved fields: a non-zero resolved stop loss forces
close_type sl with reference stop loss (priority over take profit), else
a non-zero take profit forces tp, else market with zero slippage; with a
reference the slippage is the absolute gap to the close price, so it is
never negative and a market close always has zero slippage. -/
theorem C5_close_classification (df : List DealR) (p : ClosedPosition)
    (hp : p ∈ calculate_position_times df) :
    0 ≤ p.slippage ∧
    (p.close_type = CloseType.market → p.slippage = 0) ∧
    (∀ v : ℚ, p.sl = some v →
      p.close_type = CloseType.sl ∧ p.sl_tp_price = some v ∧
        p.slippage = |p.close_price - v|) ∧
    (p.sl = none → ∀ w : ℚ, p.tp = some w →
      p.close_type = CloseType.tp ∧ p.sl_tp_price = some w ∧
        p.slippage = |p.close_price - w|) ∧
    (p.sl = none → p.tp = none →
      p.close_type = CloseType.market ∧ p.slippage = 0 ∧ p.sl_tp_price = none) := by
  rcases mem_calculate_position_times df p hp with ⟨t, ts, o, c, h1, h2, h3, hpe⟩
  have hslip : p.slippage = (classifyClose c.price c.rsl c.rtp).slippage := by rw [hpe]; rfl
  have hct : p.close_type = (classifyClose c.price c.rsl c.rtp).close_type := by rw [hpe]; rfl
  have hstp : p.sl_tp_price = (classifyClose c.price c.rsl c.rtp).sl_tp_price := by rw [hpe]; rfl
  have hsl : p.sl = nz c.rsl := by rw [hpe]; rfl
  have htp : p.tp = nz c.rtp := by rw [hpe]; rfl
  have hcp : p.close_price = c.price := by rw [hpe]; rfl
  rcases hr : nz c.rsl with _ | v
  · rcases hq : nz c.rtp with _ | w
    · simp only [classifyClose, hr, hq] at hslip hct hstp
      refine ⟨by rw [hslip], fun _ => by rw [hslip], ?_, ?_, ?_⟩
      · intro v hv
        rw [hsl, hr] at hv
        exact absurd hv (by simp)
      · intro _ w hw
        rw [htp, hq] at hw
        exact absurd hw (by simp)
      · exact fun _ _ => ⟨hct, hslip, hstp⟩
    · simp only [classifyClose, hr, hq] at hslip hct hstp
      refine ⟨by rw [hslip]; exact abs_nonneg _, fun hm => ?_, ?_, ?_, ?_⟩
      · rw [hct] at hm
        exact absurd hm (by simp)
      · intro v hv
        rw [hsl, hr] at hv
        exact absurd hv (by simp)
      · intro _ w hw
        rw [htp, hq, Option.some.injEq] at hw
        subst hw
        exact ⟨hct, hstp, by rw [hslip, hcp]⟩
      · intro _ hn
        rw [htp, hq] at hn
        exact absurd hn (by simp)
  · simp only [classifyClose, hr] at hslip hct hstp
    refine ⟨by rw [hslip]; exact abs_nonneg _, fun hm => ?_, ?_, ?_, ?_⟩
    · rw [hct] at hm
      exact absurd hm (by simp)
    · intro v2 hv
      rw [hsl, hr, Option.some.injEq] at hv
      subst hv
      exact ⟨hct, hstp, by rw [hslip, hcp]⟩
    · intro hn
      rw [hsl, hr] at hn
      exact absurd hn (by simp)
    · intro hn
      rw [hsl, hr] at hn
      exact absurd hn (by simp)

/-- C6: profit, commission and swap of every reconstructed position are
the sums of those columns over all deals of the position group including
every partial fill (calculate_position_times lines 184-186), and
total_profit is exactly profit + commission + swap (line 203). -/
theorem C6_group_sums (df : List DealR) (p : ClosedPosition)
    (hp : p ∈ calculate_position_times df) :
    p.profit =
      ((df.filter (fun d => d.position_id == p.position_id)).map (fun d => d.profit)).sum ∧
    p.commission =
      ((df.filter (fun d => d.position_id == p.position_id)).map (fun d => d.commission)).sum ∧
    p.swap =
      ((df.filter (fun d => d.position_id == p.position_id)).map (fun d => d.swap)).sum ∧
    p.total_profit = p.profit + p.commission + p.swap := by
  rcases mem_calculate_position_times df p hp with ⟨t, ts, o, c, h1, h2, h3, hpe⟩
  have hperm := positionTrades_perm df p.position_id
  rw [h1] at hperm
  have hprof : p.profit = ((t :: ts).map (fun d => d.profit)).sum := by rw [hpe]; rfl
  have hcom : p.commission = ((t :: ts).map (fun d => d.commission)).sum := by rw [hpe]; rfl
  have hsw : p.swap = ((t :: ts).map (fun d => d.swap)).sum := by rw [hpe]; rfl
  refine ⟨?_, ?_, ?_, ?_⟩
  · rw [hprof, (hperm.map (fun d => d.profit)).sum_eq]
  · rw [hcom, (hperm.map (fun d => d.commission)).sum_eq]
  · rw [hsw, (hperm.map (fun d => d.swap)).sum_eq]
  · rw [hprof, hcom, hsw, hpe]; rfl

/-- C10: open_time and close_time of every reconstructed position are the
minimum and maximum deal time over all deals of the group irrespective of
entry kind (calculate_position_times lines 172-173), so holding_duration
is close_time - open_time and never negative, with no clamping (line
197). -/
theorem C10_times_minmax (df : List DealR) (p : ClosedPosition)
    (hp : p ∈ calculate_position_times df) :
    (∃ d, (d ∈ df ∧ d.position_id = p.position_id) ∧ d.time = p.open_time) ∧
    (∃ d, (d ∈ df ∧ d.position_id = p.position_id) ∧ d.time = p.close_time) ∧
    (∀ d ∈ df, d.position_id = p.position_id →
      p.open_time ≤ d.time ∧ d.time ≤ p.close_time) ∧
    p.holding_time = (p.close_time : Int) - (p.open_time : Int) ∧
    0 ≤ p.holding_time := by
  rcases mem_calculate_position_times df p hp with ⟨t, ts, o, c, h1, h2, h3, hpe⟩
  have hot : p.open_time = (ts.map (fun d => d.time)).foldl min t.time := by rw [hpe]; rfl
  have hclt : p.close_time = (ts.map (fun d => d.time)).foldl max t.time := by rw [hpe]; rfl
  have hht : p.holding_time =
      (((ts.map (fun d => d.time)).foldl max t.time : Nat) : Int)
        - (((ts.map (fun d => d.time)).foldl min t.time : Nat) : Int) := by rw [hpe]; rfl
  have hmemtr : ∀ d : DealR, d ∈ t :: ts ↔ d ∈ df ∧ d.position_id = p.position_id := by
    intro d
    rw [← h1, mem_positionTrades]
  have htimes : ∀ x : Nat, x ∈ t.time :: ts.map (fun d => d.time) ↔
      ∃ d, (d ∈ df ∧ d.position_id = p.position_id) ∧ d.time = x := by
    intro x
    have : (t.time :: ts.map (fun d => d.time)) = (t :: ts).map (fun d => d.time) := rfl
    rw [this, List.mem_map]
    constructor
    · rintro ⟨d, hd, hdx⟩
      exact ⟨d, (hmemtr d).mp hd, hdx⟩
    · rintro ⟨d, hd, hdx⟩
      exact ⟨d, (hmemtr d).mpr hd, hdx⟩
  have hmin_mem := foldl_min_mem (ts.map (fun d => d.time)) t.time
  have hmax_mem := foldl_max_mem (ts.map (fun d => d.time)) t.time
  refine ⟨?_, ?_, ?_, ?_, ?_⟩
  · rw [hot]
    exact (htimes _).mp hmin_mem
  · rw [hclt]
    exact (htimes _).mp hmax_mem
  · intro d hd hdp
    have hmem : d.time ∈ t.time :: ts.map (fun e => e.time) :=
      (htimes d.time).mpr ⟨d, ⟨hd, hdp⟩, rfl⟩
    exact ⟨by rw [hot]; exact foldl_min_le _ _ _ hmem,
      by rw [hclt]; exact le_foldl_max _ _ _ hmem⟩
  · rw [hht, hclt, hot]
  · rw [hht]
    have hle : (ts.map (fun d => d.time)).foldl min t.time ≤
        (ts.map (fun d => d.time)).foldl max t.time :=
      le_foldl_max (ts.map (fun d => d.time)) t.time _ hmin_mem
    omega

/-- The last non-zero value of a numeric column, the notion the sparse
overwrite of the orders loop implements per field. -/
def lastNonZero (xs : List ℚ) : Option ℚ :=
  (xs.filter (fun v => decide (v ≠ 0))).getLast?

theorem lastNonZero_cons_getD (x : ℚ) (xs : List ℚ) (d : ℚ) :
    (lastNonZero (x :: xs)).getD d =
      if x ≠ 0 then (lastNonZero xs).getD x else (lastNonZero xs).getD d := by
  rw [lastNonZero, lastNonZero, List.filter_cons]
  by_cases hx : x ≠ 0
  · rw [if_pos (by simpa using hx), if_pos hx]
    cases hf : xs.filter (fun v => decide (v ≠ 0)) with
    | nil => simp
    | cons y ys =>
      rw [List.getLast?_cons_cons]
      cases hz : (y :: ys).getLast? with
      | none => exact absurd (List.getLast?_eq_none_iff.mp hz) (by simp)
      | some z => rfl
  · rw [if_neg (by simpa using hx), if_neg hx]

theorem foldl_applyOrder_some (l : List Order) :
    ∀ v : SlTp,
      l.foldl applyOrder (some v) =
        some ⟨(lastNonZero (l.map (fun o => o.sl))).getD v.sl,
              (lastNonZero (l.map (fun o => o.tp))).getD v.tp⟩ := by
  induction l with
  | nil =>
    intro v
    simp [lastNonZero]
  | cons o t ih =>
    intro v
    rw [List.foldl_cons]
    have happ : applyOrder (some v) o =
        some ⟨if o.sl ≠ 0 then o.sl else v.sl, if o.tp ≠ 0 then o.tp else v.tp⟩ := rfl
    rw [happ, ih]
    congr 1
    rw [List.map_cons, List.map_cons, lastNonZero_cons_getD, lastNonZero_cons_getD]
    by_cases hs : o.sl ≠ 0 <;> by_cases ht : o.tp ≠ 0 <;> simp [hs, ht]

theorem ordersDict_foldl_filter (orders : List Order) :
    ∀ (dict : Nat → Option SlTp) (pid : Nat),
      (orders.foldl updateOrdersDict dict) pid =
        (orders.filter (fun o => o.position_id == pid)).foldl applyOrder (dict pid) := by
  induction orders with
  | nil => intro dict pid; rfl
  | cons o t ih =>
    intro dict pid
    rw [List.foldl_cons, ih, List.filter_cons]
    by_cases h : o.position_id = pid
    · rw [if_pos (by simpa using h), List.foldl_cons]
      congr 1
      rw [updateOrdersDict, if_pos h.symm, h]
    · rw [if_neg (by simpa using h)]
      congr 1
      rw [updateOrdersDict, if_neg (fun he => h he.symm)]

/-- C7: the resolved stop loss attached to a position is the last
non-zero sl over the orders of that position in time order (zero when orders
exist but none carries a non-zero sl, absent when the position has no
order), and independently the same for the take profit; in particular a
later zero value never overwrites an earlier non-zero one
(get_trades_history lines 74-88). -/
theorem C7_last_nonzero_resolution (orders : List Order) (pid : Nat) :
    ((ordersDict orders pid).map (fun v => v.sl) =
      if orders.filter (fun o => o.position_id == pid) = [] then none
      else some ((lastNonZero
        ((orders.filter (fun o => o.position_id == pid)).map (fun o => o.sl))).getD 0)) ∧
    ((ordersDict orders pid).map (fun v => v.tp) =
      if orders.filter (fun o => o.position_id == pid) = [] then none
      else some ((lastNonZero
        ((orders.filter (fun o => o.position_id == pid)).map (fun o => o.tp))).getD 0)) := by
  have hloc : ordersDict orders pid =
      (orders.filter (fun o => o.position_id == pid)).foldl applyOrder none :=
    ordersDict_foldl_filter orders (fun _ => none) pid
  cases hf : orders.filter (fun o => o.position_id == pid) with
  | nil =>
    rw [hloc, hf]
    simp
  | cons o t =>
    rw [hloc, hf, List.foldl_cons]
    have happ : applyOrder none o = some ⟨o.sl, o.tp⟩ := rfl
    rw [happ, foldl_applyOrder_some]
    constructor
    · rw [if_neg (by simp), List.map_cons, lastNonZero_cons_getD]
      by_cases hs : o.sl ≠ 0
      · simp [hs]
      · rw [if_neg hs, Option.map_some']
        rw [not_not.mp hs]
    · rw [if_neg (by simp), List.map_cons, lastNonZero_cons_getD]
      by_cases ht : o.tp ≠ 0
      · simp [ht]
      · rw [if_neg ht, Option.map_some']
        rw [not_not.mp ht]

theorem priceChange_nonneg (df : List DealR) (p : ClosedPosition)
    (hp : p ∈ calculate_position_times df) : 0 ≤ p.price_change := by
  rcases mem_calculate_position_times df p hp with ⟨t, ts, o, c, h1, h2, h3, hpe⟩
  have : p.price_change = |c.price - o.price| := by rw [hpe]; rfl
  rw [this]
  exact abs_nonneg _

theorem winRate_nonneg (g : List ClosedPosition) : 0 ≤ winRate g := by
  rw [winRate]
  by_cases h : 0 < g.length
  · rw [if_pos h]
    exact mul_nonneg (div_nonneg (Nat.cast_nonneg _) (Nat.cast_nonneg _)) (by norm_num)
  · rw [if_neg h]

theorem winRate_le_100 (g : List ClosedPosition) : winRate g ≤ 100 := by
  rw [winRate]
  by_cases h : 0 < g.length
  · rw [if_pos h]
    have hn : (0 : ℚ) < (g.length : ℚ) := by exact_mod_cast h
    have hk : ((g.filter (fun p => p.is_profit)).length : ℚ) ≤ (g.length : ℚ) := by
      exact_mod_cast List.length_filter_le _ g
    have hr := mul_le_mul_of_nonneg_right ((div_le_one hn).mpr hk)
      (by norm_num : (0 : ℚ) ≤ 100)
    simpa using hr
  · rw [if_neg h]
    norm_num

theorem meanPriceChange_nonneg (g : List ClosedPosition)
    (h : ∀ p ∈ g, 0 ≤ p.price_change) : 0 ≤ meanPriceChange g := by
  rw [meanPriceChange]
  apply div_nonneg _ (Nat.cast_nonneg _)
  apply List.sum_nonneg
  intro x hx
  rcases List.mem_map.mp hx with ⟨p, hpg, hpx⟩
  rw [← hpx]
  exact h p hpg

theorem avgProfitPoints_nonneg (g : List ClosedPosition)
    (h : ∀ p ∈ g, 0 ≤ p.price_change) : 0 ≤ avgProfitPoints g := by
  rw [avgProfitPoints]
  by_cases hc : 0 < (g.filter (fun p => p.is_profit)).length
  · rw [if_pos hc]
    exact meanPriceChange_nonneg _ (fun p hp => h p (List.mem_of_mem_filter hp))
  · rw [if_neg hc]

theorem profitOverLoss_nonneg (g : List ClosedPosition)
    (h : ∀ p ∈ g, 0 ≤ p.price_change) : 0 ≤ profitOverLoss g := by
  rw [profitOverLoss]
  by_cases hc : 0 < avgLossPoints g
  · rw [if_pos hc]
    exact div_nonneg (avgProfitPoints_nonneg g h) hc.le
  · rw [if_neg hc]

/-- C8: for every aggregation group, keyed by close date and symbol
(analyze_trades_by_day lines 729-735, save_daily_trades lines 437-452)
or keyed by close date alone (save_daily_trades lines 313-385), the win
rate is profitable count over total count times 100 guarded to 0 on an
empty group and always lies in [0, 100], and the profit-loss ratio of
mean profitable price change over mean losing price change is guarded to
0 when the losing side is empty or has mean 0, and is never negative, so
neither computation divides by zero. -/
theorem C8_group_stat_guards (df : List DealR) (date : Nat) (symbol : String) :
    (0 ≤ winRate (dateSymbolGroup (calculate_position_times df) date symbol) ∧
    winRate (dateSymbolGroup (calculate_position_times df) date symbol) ≤ 100 ∧
    0 ≤ profitOverLoss (dateSymbolGroup (calculate_position_times df) date symbol) ∧
    (avgLossPoints (dateSymbolGroup (calculate_position_times df) date symbol) = 0 →
      profitOverLoss (dateSymbolGroup (calculate_position_times df) date symbol) = 0) ∧
    (dateSymbolGroup (calculate_position_times df) date symbol = [] →
      winRate (dateSymbolGroup (calculate_position_times df) date symbol) = 0)) ∧
    (0 ≤ winRate (dateGroup (calculate_position_times df) date) ∧
    winRate (dateGroup (calculate_position_times df) date) ≤ 100 ∧
    0 ≤ profitOverLoss (dateGroup (calculate_position_times df) date) ∧
    (avgLossPoints (dateGroup (calculate_position_times df) date) = 0 →
      profitOverLoss (dateGroup (calculate_position_times df) date) = 0) ∧
    (dateGroup (calculate_position_times df) date = [] →
      winRate (dateGroup (calculate_position_times df) date) = 0)) := by
  have hnn : ∀ p ∈ dateSymbolGroup (calculate_position_times df) date symbol,
      0 ≤ p.price_change := by
    intro p hp
    exact priceChange_nonneg df p (List.mem_of_mem_filter hp)
  have hnnd : ∀ p ∈ dateGroup (calculate_position_times df) date,
      0 ≤ p.price_change := by
    intro p hp
    exact priceChange_nonneg df p (List.mem_of_mem_filter hp)
  refine ⟨⟨winRate_nonneg _, winRate_le_100 _, profitOverLoss_nonneg _ hnn, ?_, ?_⟩,
    ⟨winRate_nonneg _, winRate_le_100 _, profitOverLoss_nonneg _ hnnd, ?_, ?_⟩⟩
  · intro hz
    rw [profitOverLoss, if_neg (by rw [hz]; exact lt_irrefl 0)]
  · intro he
    rw [he, winRate]
    simp
  · intro hz
    rw [profitOverLoss, if_neg (by rw [hz]; exact lt_irrefl 0)]
  · intro he
    rw [he, winRate]
    simp

/-- C3 (code bug): on an empty deal feed get_trades_history returns the
bare None no-data value, but both callers unpack the return value into a
tuple before checking it (mt5_trade_analysis.py line 808,
mt5_api_server.py line 38), so the unpacking raises TypeError: main lets
it escape (its try block has no except), and run_analysis lands in its
generic except branch instead of its explicit no-trade-data branch of
lines 49-54, which is unreachable. -/
theorem C3_no_data_unpack_crash :
    get_trades_history (some []) (some []) (some []) = none ∧
    runMain (some []) (some []) (some []) = MainOutcome.uncaughtTypeError ∧
    runMain (some []) (some []) (some []) ≠ MainOutcome.noDataHandled ∧
    run_analysis (some []) (some []) (some []) = TaskStatus.failedException ∧
    run_analysis (some []) (some []) (some []) ≠ TaskStatus.failedNoData := by
  refine ⟨rfl, rfl, ?_, rfl, ?_⟩ <;> decide

/-- C1 (amended): the withdrawal-day baseline update of
analyze_trades_by_day lines 682-683 performs the rescaling division with
no guard: when current_equity - daily_balance_delta is 0 the division by
zero occurs and the recurrence fails instead of setting the baseline to
current_equity; when the denominator is non-zero the update is
max(baseline * current / (current - delta), current). -/
theorem C1_withdrawal_rescale_unguarded (mx cur delta : ℚ) (hneg : delta < 0) :
    (cur - delta = 0 → baselineUpdate mx cur delta = none) ∧
    (cur - delta ≠ 0 →
      baselineUpdate mx cur delta = some (max (mx * (cur / (cur - delta))) cur)) := by
  have hnot : ¬ 0 ≤ delta := not_le.mpr hneg
  constructor
  · intro hz
    rw [baselineUpdate, if_neg hnot, pydiv, if_pos hz]
    rfl
  · intro hz
    rw [baselineUpdate, if_neg hnot, pydiv, if_neg hz]
    rfl

unseal Rat.mul Rat.inv Rat.add Rat.sub in
/-- C1 counterexample: a completed position losing 10000 on day 0
together with a withdrawal of 500 booked the same day drives the equity
to -500, making current_equity - daily_balance_delta exactly 0 on a
withdrawal day; the recurrence performs the division by zero and fails,
so it is not the case that the rescaling is skipped with the baseline set
to current_equity. -/
theorem C1_zero_denominator_fails :
    ((-500 : ℚ) - (-500) = 0) ∧ ((-500 : ℚ) < 0) ∧
    baselineUpdate 10000 (-500) (-500) = none ∧
    analyze_equity (feedPositions wdDeals []) (balanceRows wdBalanceFeed) = none := by
  refine ⟨by norm_num, by norm_num, by decide, by decide⟩

unseal Rat.mul Rat.inv Rat.add Rat.sub in
theorem C1_withdrawal_rescale_unguarded_witness :
    baselineUpdate 10000 (-400) (-500) =
      some (max ((10000 : ℚ) * ((-400) / ((-400) - (-500)))) (-400)) :=
  (C1_withdrawal_rescale_unguarded 10000 (-400) (-500) (by norm_num)).2 (by norm_num)

unseal Rat.mul Rat.inv Rat.add Rat.sub in
/-- C2 (amended): the drawdown of analyze_trades_by_day line 686 is
(max_equity - current_equity) / max_equity * 100 computed with no guard
on max_equity: when the baseline is 0 (reachable, as the final conjunct
shows on a concrete feed) the division by zero occurs instead of the
guarded 0; when the baseline is positive the value is at most 100
provided current_equity is non-negative and at least 0 provided
current_equity does not exceed the baseline, but a deposit day can push
current_equity above the baseline and make the drawdown negative. -/
theorem C2_drawdown_unguarded (mx cur : ℚ) (hpos : 0 < mx) :
    drawdownOf mx cur = some ((mx - cur) / mx * 100) ∧
    (0 ≤ cur → (mx - cur) / mx * 100 ≤ 100) ∧
    (cur ≤ mx → 0 ≤ (mx - cur) / mx * 100) ∧
    drawdownOf 0 cur = none ∧
    analyze_equity (feedPositions zbDeals []) (balanceRows zbBalanceFeed) = none := by
  refine ⟨?_, ?_, ?_, ?_, by decide⟩
  · rw [drawdownOf, pydiv, if_neg (ne_of_gt hpos)]
    rfl
  · intro hc
    have h1 : (mx - cur) / mx ≤ 1 := (div_le_one hpos).mpr (by linarith)
    have := mul_le_mul_of_nonneg_right h1 (by norm_num : (0 : ℚ) ≤ 100)
    simpa using this
  · intro hc
    exact mul_nonneg (div_nonneg (by linarith) hpos.le) (by norm_num)
  · rw [drawdownOf, pydiv, if_pos rfl]
    rfl

unseal Rat.mul Rat.inv Rat.add Rat.sub in
/-- C2 counterexample: with one position gaining 100 on day 0 and a
deposit of 500 on day 1, the day 1 baseline stays 10100 (the deposit is
excluded) while the equity is 10600, so the computed drawdown is
-500/101, strictly negative although the baseline is positive, refuting
the claimed bound 0 <= drawdown_pct; no guard for a non-positive baseline
exists in the code. -/
theorem C2_negative_drawdown :
    (analyze_equity (feedPositions depDeals []) (balanceRows depBalanceFeed)).map
      (fun out => out.2.map (fun r => (r.max_equity, r.drawdown))) =
      some [(10100, 0), (10100, -500/101)] ∧
    ((0 : ℚ) < 10100) ∧ ((-500/101 : ℚ) < 0) := by
  refine ⟨by decide, by norm_num, by norm_num⟩

unseal Rat.mul Rat.inv Rat.add Rat.sub in
theorem C2_drawdown_unguarded_witness :
    drawdownOf 10100 10600 = some (((10100 : ℚ) - 10600) / 10100 * 100) :=
  (C2_drawdown_unguarded 10100 10600 (by norm_num)).1

theorem dayStep_components (position_times : List ClosedPosition) (balance_df : List Deal)
    (s s2 : EqState) (d : Nat) (row : DayRow)
    (h : dayStep position_times balance_df s d = some (s2, row)) :
    s2.current_equity =
      s.current_equity + balanceDelta balance_df d + tradingPnl position_times d ∧
    row.date = d ∧
    row.equity =
      s.current_equity + balanceDelta balance_df d + tradingPnl position_times d := by
  simp only [dayStep] at h
  split at h
  · cases h
  · split at h
    · cases h
    · simp only [Option.some.injEq, Prod.mk.injEq] at h
      obtain ⟨hs, hr⟩ := h
      rw [← hs, ← hr]
      exact ⟨rfl, rfl, rfl⟩

theorem analyzeGo_saveGo (position_times : List ClosedPosition) (balance_df : List Deal) :
    ∀ (dates : List Nat) (s : EqState) (out : EqState × List DayRow),
      analyzeGo position_times balance_df s dates = some out →
      out.2.map (fun r => (r.date, r.equity)) =
        (saveGo position_times balance_df s.current_equity dates).map
          (fun r => (r.date, r.equity)) := by
  intro dates
  induction dates with
  | nil =>
    intro s out h
    rw [analyzeGo] at h
    cases h
    rfl
  | cons d ds ih =>
    intro s out h
    rw [analyzeGo] at h
    cases hstep : dayStep position_times balance_df s d with
    | none => rw [hstep] at h; cases h
    | some sr =>
      obtain ⟨s2, row⟩ := sr
      rw [hstep] at h
      have h2 : (match analyzeGo position_times balance_df s2 ds with
          | none => none
          | some (s3, rows) => some (s3, row :: rows)) = some out := h
      cases hrec : analyzeGo position_times balance_df s2 ds with
      | none => rw [hrec] at h2; cases h2
      | some out2 =>
        obtain ⟨s3, rows⟩ := out2
        rw [hrec] at h2
        have h3 : some (s3, row :: rows) = some out := h2
        cases h3
        obtain ⟨hcur, hdate, heq⟩ := dayStep_components position_times balance_df s s2 d row hstep
        simp only [saveGo, List.map_cons]
        rw [ih s2 (s3, rows) hrec, hcur, hdate, heq]

/-- C9: given the same closed positions, balance events and the initial
equity of 10000, whenever the drawdown recurrence of
analyze_trades_by_day completes, its per-day equity values coincide date
by date with the equity rows emitted by save_daily_trades: both fold
current_equity += daily_balance_delta + daily_trading_pnl over the same
ascending sorted union of close dates and balance dates (source lines
649-688 and 270-307). -/
theorem C9_equity_rows_agree (position_times : List ClosedPosition) (balance_df : List Deal)
    (out : EqState × List DayRow)
    (h : analyze_equity position_times balance_df = some out) :
    out.2.map (fun r => (r.date, r.equity)) =
      (save_equity_rows position_times balance_df).map (fun r => (r.date, r.equity)) :=
  analyzeGo_saveGo position_times balance_df (allDates position_times balance_df)
    ⟨initial_equity, initial_equity, 0⟩ out h

unseal Rat.mul Rat.inv Rat.add Rat.sub in
theorem C9_equity_rows_agree_witness :
    ([⟨0, 100, 0, 10100, 10100, 0⟩, ⟨1, 0, 500, 10600, 10100, -500/101⟩] :
        List DayRow).map (fun r => (r.date, r.equity)) =
      (save_equity_rows (feedPositions depDeals []) (balanceRows depBalanceFeed)).map
        (fun r => (r.date, r.equity)) :=
  C9_equity_rows_agree (feedPositions depDeals []) (balanceRows depBalanceFeed)
    (⟨10600, 10100, 0⟩,
      [⟨0, 100, 0, 10100, 10100, 0⟩, ⟨1, 0, 500, 10600, 10100, -500/101⟩])
    (by decide)

unseal Rat.mul Rat.inv Rat.add Rat.sub in
theorem C5_close_classification_witness :
    0 ≤ exPos.slippage ∧ exPos.close_type = CloseType.sl ∧
      exPos.sl_tp_price = some (9/8) ∧ exPos.slippage = |exPos.close_price - (9/8 : ℚ)| :=
  ⟨(C5_close_classification exDf exPos (by decide)).1,
    ((C5_close_classification exDf exPos (by decide)).2.2.1 (9/8) (by decide)).1,
    ((C5_close_classification exDf exPos (by decide)).2.2.1 (9/8) (by decide)).2.1,
    ((C5_close_classification exDf exPos (by decide)).2.2.1 (9/8) (by decide)).2.2⟩

unseal Rat.mul Rat.inv Rat.add Rat.sub in
theorem C6_group_sums_witness :
    exPos.total_profit = exPos.profit + exPos.commission + exPos.swap :=
  (C6_group_sums exDf exPos (by decide)).2.2.2

unseal Rat.mul Rat.inv Rat.add Rat.sub in
theorem C10_times_minmax_witness :
    exPos.holding_time = (exPos.close_time : Int) - (exPos.open_time : Int) ∧
      0 ≤ exPos.holding_time :=
  ⟨(C10_times_minmax exDf exPos (by decide)).2.2.2.1,
    (C10_times_minmax exDf exPos (by decide)).2.2.2.2⟩

end MT5
